import Mathlib

/-!
Verification of the OCR_PADDLE claim-form extraction pipeline.

Shallow embedding of the Python sources:
* `src/src/parsers/form_parser.py` (`FormParser`)
* `src/src/ocr/postprocessor.py` (`TextPostprocessor`)
* `src/measure_accuracy.py` (accuracy evaluator)

Strings are modelled as Lean `String` / `List Char`.  The regular
expressions appearing in the source are small and concrete; each one is
compiled by hand into a deterministic scanner over `List Char`, following
Python `re` semantics (leftmost match, greedy quantifiers).  Python's
`\w` word-character class is modelled on its ASCII fragment
(`[A-Za-z0-9_]`); every concrete input used in a theorem below stays
inside the fragment where the model is exact.
-/

namespace OCRPaddle

/-- Python whitespace (the set accepted by `str.strip`, `str.isspace` and
the `re` class `\s` on `str` patterns): ASCII whitespace, the file/group
separators 0x1c-0x1f, NEL, NBSP and the Unicode space separators. -/
def pyIsSpace (c : Char) : Bool :=
  (9 ≤ c.toNat && c.toNat ≤ 13) || c.toNat = 32 ||
  (28 ≤ c.toNat && c.toNat ≤ 31) || c.toNat = 133 || c.toNat = 160 ||
  c.toNat = 0x1680 || (0x2000 ≤ c.toNat && c.toNat ≤ 0x200a) ||
  c.toNat = 0x2028 || c.toNat = 0x2029 || c.toNat = 0x202f ||
  c.toNat = 0x205f || c.toNat = 0x3000

/-- ASCII model of the `re` word-character class `\w` (`[A-Za-z0-9_]`). -/
def isWordChar (c : Char) : Bool :=
  c.isAlphanum || c = '_'

/-- Python `str.strip()` on a character list: drop leading and trailing
whitespace. -/
def pyStripL (cs : List Char) : List Char :=
  ((cs.dropWhile pyIsSpace).reverse.dropWhile pyIsSpace).reverse

/-- Python `str.strip()`. -/
def pyStrip (s : String) : String :=
  String.mk (pyStripL s.toList)

/-- Python `str.lower()` (ASCII model of the case fold). -/
def pyLowerL (cs : List Char) : List Char :=
  cs.map Char.toLower

/-- `needle in haystack`: Python substring containment on lists. -/
def occursL (nd : List Char) : List Char → Bool
  | [] => nd.isEmpty
  | c :: cs => nd.isPrefixOf (c :: cs) || occursL nd cs

/-- `needle in haystack`: Python substring containment on strings. -/
def occursS (nd s : String) : Bool :=
  occursL nd.toList s.toList

/-- Recursion core of Python `str.replace(old, new)` for a nonempty
`old`, with a step-count fuel that makes the recursion structural (every
step consumes at least one character, so `cs.length` fuel always
suffices). -/
def pyReplaceFuel (old new : List Char) : Nat → List Char → List Char
  | 0, cs => cs
  | _ + 1, [] => []
  | fuel + 1, c :: cs =>
    if old.isPrefixOf (c :: cs) then
      new ++ pyReplaceFuel old new fuel ((c :: cs).drop old.length)
    else
      c :: pyReplaceFuel old new fuel cs

/-- Python `str.replace(old, new)` with a nonempty `old`: replace every
non-overlapping occurrence, scanning left to right. -/
def pyReplaceL (old new cs : List Char) : List Char :=
  if old.isEmpty then cs else pyReplaceFuel old new cs.length cs

/-- Recursion core of `re.sub(r'\s+', ' ', _)`: the flag records whether
the scanner is inside a whitespace run (whose first character already
emitted the single replacement space). -/
def collapseWsGo : Bool → List Char → List Char
  | _, [] => []
  | inRun, c :: cs =>
    if pyIsSpace c then
      if inRun then collapseWsGo true cs else ' ' :: collapseWsGo true cs
    else c :: collapseWsGo false cs

/-- `re.sub(r'\s+', ' ', _)`: every maximal whitespace run becomes a
single space. -/
def collapseWsL (cs : List Char) : List Char :=
  collapseWsGo false cs

/-- Python `int()` applied to a digit string (base-10 left fold). -/
def strToNatL (cs : List Char) : Nat :=
  cs.foldl (fun a c => 10 * a + (c.toNat - 48)) 0

/-- The rendering `f"{n:02d}"` of a value below 100 (the only values the
parser feeds it, since the matched groups are `\d{1,2}`). -/
def pad2 (n : Nat) : List Char :=
  [Nat.digitChar (n / 10), Nat.digitChar (n % 10)]

namespace FormParser

/-- The second (effective) definition of `FormParser._clean_value`
(form_parser.py:1064-1086): `None` passes through, otherwise strip, then
`re.sub(r'\s+', ' ', _)`, and an empty result becomes `None`.  This
definition shadows the earlier one at runtime. -/
def clean_value : Option String → Option String
  | none => none
  | some s =>
    let t := collapseWsL (pyStripL s.toList)
    if t.isEmpty then none else some (String.mk t)

/-- The first (shadowed, dead) definition of `FormParser._clean_value`
(form_parser.py:151-159): strip, delete underscores and periods, map the
sentinel tokens to `None`.  Python resolves the duplicate method name to
the later definition, so this code never runs. -/
def clean_value_shadowed : Option String → Option String
  | none => none
  | some s =>
    if s = "" then none
    else
      let cleaned := ((pyStripL s.toList).filter (fun c => c ≠ '_')).filter
        (fun c => c ≠ '.')
      if pyLowerL cleaned = "none".toList ∨ pyLowerL cleaned = "n/a".toList ∨
          pyLowerL cleaned = "unspecified".toList then none
      else some (String.mk cleaned)

/-- Anchored match of `^(\d{1,2})/(\d{1,2})/(\d{yearLen})$` returning the
three digit groups.  The quantifiers are greedy; because each digit group
is followed by `/` (or the anchor), a maximal digit run of the wrong
length cannot be rescued by backtracking, so the scanner only has to
inspect maximal runs. -/
def matchMDY (yearLen : Nat) (cs : List Char) :
    Option (List Char × List Char × List Char) :=
  let p1 := cs.span Char.isDigit
  if p1.1.length = 0 || 2 < p1.1.length then none
  else
    match p1.2 with
    | '/' :: r2 =>
      let p2 := r2.span Char.isDigit
      if p2.1.length = 0 || 2 < p2.1.length then none
      else
        match p2.2 with
        | '/' :: r4 =>
          let p3 := r4.span Char.isDigit
          if p3.1.length = yearLen && p3.2.isEmpty then some (p1.1, p2.1, p3.1)
          else none
        | _ => none
    | _ => none

/-- `FormParser._normalize_date` (form_parser.py:161-177): `M/D/YYYY` and
`M/D/YY` are rewritten to zero-padded `MM/DD/YYYY` (two-digit years get a
`20` prefix); anything else is returned stripped.  Falsy input (`None` or
the empty string) yields `None`. -/
def normalize_date : Option String → Option String
  | none => none
  | some s =>
    if s = "" then none
    else
      let t := pyStripL s.toList
      match matchMDY 4 t with
      | some (m, d, y) =>
        some (String.mk (pad2 (strToNatL m) ++ '/' :: pad2 (strToNatL d) ++ '/' :: y))
      | none =>
        match matchMDY 2 t with
        | some (m, d, y) =>
          some (String.mk
            (pad2 (strToNatL m) ++ '/' :: pad2 (strToNatL d) ++ '/' :: '2' :: '0' :: y))
        | none => some (String.mk t)

/-- `FormParser._validate_zip` (form_parser.py:179-187): falsy input maps
to `None`; a candidate containing the company-header digits `48333` or
`2005` anywhere inside it is rejected to `None`; anything else passes
through unchanged. -/
def validate_zip : Option String → Option String
  | none => none
  | some s =>
    if s = "" then none
    else if occursS "48333" s || occursS "2005" s then none
    else some s

/-- `FormParser._identify_section` (form_parser.py:128-149): the literal
if/elif chain of substring tests, with the page-number disambiguation for
the PART A header. -/
def identify_section (text : String) (page_num : Nat) : String :=
  if occursS "PART A: CLAIMANT INFORMATION" text && page_num = 1 then
    "PART A: CLAIMANT INFORMATION"
  else if occursS "PART A: CLAIMANT INFORMATION" text && page_num = 2 then
    "PART A (Continued) + PART B: TRAVEL ASSISTANCE AND OTHER CLAIMS"
  else if occursS "PART C: MEDICAL INFORMATION" text then
    "PART C: MEDICAL INFORMATION"
  else if occursS "PART D: MEDICAL RECORD AUTHORIZATION" text then
    "PART D: MEDICAL RECORD AUTHORIZATION"
  else if occursS "SUPPLEMENT A" text then
    "SUPPLEMENT A — NON-U.S. CLAIM ITEMIZATION FORM"
  else if occursS "SUPPLEMENT B" text then
    "SUPPLEMENT B — ILLNESS OR INJURY"
  else if occursS "SUPPLEMENT C" text then
    if occursS "THIRD PARTY" text then
      "SUPPLEMENT C (Continued) + THIRD PARTY PAYMENT FORM"
    else
      "SUPPLEMENT C — PAYMENT AUTHORIZATION AGREEMENT FORM"
  else if occursS "SUPPLEMENT D" text then
    "SUPPLEMENT D — AUTHORIZATION FORM (PHI Disclosure)"
  else
    "UNKNOWN SECTION"

/-- The closed enumeration of section labels `_identify_section` can
produce. -/
def allSections : List String :=
  ["PART A: CLAIMANT INFORMATION",
   "PART A (Continued) + PART B: TRAVEL ASSISTANCE AND OTHER CLAIMS",
   "PART C: MEDICAL INFORMATION",
   "PART D: MEDICAL RECORD AUTHORIZATION",
   "SUPPLEMENT A — NON-U.S. CLAIM ITEMIZATION FORM",
   "SUPPLEMENT B — ILLNESS OR INJURY",
   "SUPPLEMENT C (Continued) + THIRD PARTY PAYMENT FORM",
   "SUPPLEMENT C — PAYMENT AUTHORIZATION AGREEMENT FORM",
   "SUPPLEMENT D — AUTHORIZATION FORM (PHI Disclosure)",
   "UNKNOWN SECTION"]

/-- The spec's reading of the classifier: an ordered list of
(content-marker predicate, section label) rules, the first rule whose
predicate holds deciding, with an explicit unknown-section fallthrough.
Modelled from the spec section 4.3 to be compared with
`identify_section`. -/
def sectionRules : List ((String → Nat → Bool) × String) :=
  [(fun t p => occursS "PART A: CLAIMANT INFORMATION" t && p = 1,
    "PART A: CLAIMANT INFORMATION"),
   (fun t p => occursS "PART A: CLAIMANT INFORMATION" t && p = 2,
    "PART A (Continued) + PART B: TRAVEL ASSISTANCE AND OTHER CLAIMS"),
   (fun t _ => occursS "PART C: MEDICAL INFORMATION" t,
    "PART C: MEDICAL INFORMATION"),
   (fun t _ => occursS "PART D: MEDICAL RECORD AUTHORIZATION" t,
    "PART D: MEDICAL RECORD AUTHORIZATION"),
   (fun t _ => occursS "SUPPLEMENT A" t,
    "SUPPLEMENT A — NON-U.S. CLAIM ITEMIZATION FORM"),
   (fun t _ => occursS "SUPPLEMENT B" t,
    "SUPPLEMENT B — ILLNESS OR INJURY"),
   (fun t _ => occursS "SUPPLEMENT C" t && occursS "THIRD PARTY" t,
    "SUPPLEMENT C (Continued) + THIRD PARTY PAYMENT FORM"),
   (fun t _ => occursS "SUPPLEMENT C" t,
    "SUPPLEMENT C — PAYMENT AUTHORIZATION AGREEMENT FORM"),
   (fun t _ => occursS "SUPPLEMENT D" t,
    "SUPPLEMENT D — AUTHORIZATION FORM (PHI Disclosure)")]

/-- Evaluate an ordered rule list: the first rule whose predicate holds
decides, with the explicit unknown-section fallthrough. -/
def applyRules : List ((String → Nat → Bool) × String) → String → Nat → String
  | [], _, _ => "UNKNOWN SECTION"
  | r :: rs, text, page_num =>
    if r.1 text page_num then r.2 else applyRules rs text page_num

/-- The spec's classifier: the ordered rule list evaluated first-match. -/
def identify_section_byRules (text : String) (page_num : Nat) : String :=
  applyRules sectionRules text page_num

/-- Leftmost-match search: `re.search` tries each start position from the
left and takes the first position where the pattern matcher succeeds
(none of the patterns below can match the empty suffix). -/
def scanFirst {α : Type} (f : List Char → Option α) : List Char → Option α
  | [] => none
  | c :: cs =>
    match f (c :: cs) with
    | some r => some r
    | none => scanFirst f cs

/-- ASCII upper-case letter (the `re` class `[A-Z]`). -/
def isUpperAZ (c : Char) : Bool := 'A' ≤ c && c ≤ 'Z'

/-- ASCII lower-case letter (the `re` class `[a-z]`). -/
def isLowerAZ (c : Char) : Bool := 'a' ≤ c && c ≤ 'z'

/-- `(\d{1,2})/` anchored at the given position: the greedy quantifier
prefers two digits; the one- and two-digit alternatives are mutually
exclusive (a digit is never `/`), so no later backtracking can change
the choice.  Returns the digit group and the rest after the slash. -/
def matchD12Slash (cs : List Char) : Option (List Char × List Char) :=
  match cs with
  | a :: b :: c :: r =>
    if a.isDigit && b.isDigit && c = '/' then some ([a, b], r)
    else if a.isDigit && b = '/' then some ([a], c :: r)
    else none
  | [a, b] => if a.isDigit && b = '/' then some ([a], []) else none
  | _ => none

/-- `\d{4}` anchored at the given position (whatever follows is free). -/
def take4Digits (cs : List Char) : Option (List Char) :=
  match cs with
  | a :: b :: c :: d :: _ =>
    if a.isDigit && b.isDigit && c.isDigit && d.isDigit then some [a, b, c, d]
    else none
  | _ => none

/-- `(\d{1,2})/(\d{1,2})/(\d{4})` anchored at the given position,
returning the full matched text. -/
def matchDateAt (cs : List Char) : Option (List Char) :=
  match matchD12Slash cs with
  | some (g1, r1) =>
    match matchD12Slash r1 with
    | some (g2, r2) =>
      match take4Digits r2 with
      | some g3 => some (g1 ++ '/' :: g2 ++ '/' :: g3)
      | none => none
    | none => none
  | none => none

/-- `[A-Z][a-z]+\s+[A-Z][a-z]+` anchored at the given position.  Each
greedy run is followed by a disjoint character class, so maximal runs
are the only candidates. -/
def matchNameAfter (cs : List Char) : Option (List Char) :=
  match cs with
  | u1 :: r1 =>
    if isUpperAZ u1 then
      let p1 := r1.span isLowerAZ
      if p1.1.isEmpty then none
      else
        let p2 := p1.2.span pyIsSpace
        if p2.1.isEmpty then none
        else
          match p2.2 with
          | u2 :: r4 =>
            if isUpperAZ u2 then
              let p3 := r4.span isLowerAZ
              if p3.1.isEmpty then none
              else some (u1 :: p1.1 ++ p2.1 ++ u2 :: p3.1)
            else none
          | [] => none
    else none
  | [] => none

/-- `(\d{4})([A-Z][a-z]+\s+[A-Z][a-z]+)` anchored at the given position,
returning the second group (the name). -/
def matchDigits4NameAt (cs : List Char) : Option (List Char) :=
  match cs with
  | a :: b :: c :: d :: rest =>
    if a.isDigit && b.isDigit && c.isDigit && d.isDigit then matchNameAfter rest
    else none
  | _ => none

/-- `Print Name.*?\n([A-Z][a-z]+\s+[A-Z][a-z]+)` anchored at the given
position: the literal, then the lazy `.*?` (which cannot cross a
newline) runs to the first newline, after which the name group must
match immediately. -/
def matchPrintNameAt (cs : List Char) : Option (List Char) :=
  if "Print Name".toList.isPrefixOf cs then
    match (cs.drop 10).dropWhile (fun c => c ≠ '\n') with
    | '\n' :: r3 => matchNameAfter r3
    | _ => none
  else none

/-- The signatures map built by `_parse_part_d`; the method always stores
a string (possibly empty) under `printed_name` and never cleans the
map. -/
structure PartDSignatures where
  claimant_signature_date_mm_dd_yy : Option String
  insured_signature_date_mm_dd_yy : Option String
  printed_name : String
deriving DecidableEq, Repr

/-- `FormParser._parse_part_d` (form_parser.py:648-689): the first date
found is normalized and stored under both signature-date keys; the
printed name comes from the `(\d{4})(name)` search (the duplicated block
at lines 670-676 repeats the identical search with the identical
outcome, so it is modelled once), then from the `Print Name` backup; when
nothing matched the method stores the empty string. -/
def parse_part_d (text : String) : PartDSignatures :=
  let cs := text.toList
  let dates :=
    match scanFirst matchDateAt cs with
    | some d => normalize_date (some (String.mk d))
    | none => none
  let name1 :=
    match scanFirst matchDigits4NameAt cs with
    | some n =>
      if occursL "Domestic".toList n || occursL "Farmington".toList n then none
      else some (String.mk n)
    | none => none
  let name2 :=
    match name1 with
    | some n => some n
    | none =>
      match scanFirst matchPrintNameAt cs with
      | some n =>
        if occursL "Domestic".toList n then none else some (String.mk n)
      | none => none
  { claimant_signature_date_mm_dd_yy := dates
    insured_signature_date_mm_dd_yy := dates
    printed_name := name2.getD "" }

/-- `--- Page \d+ ---` anchored at the given position, returning the
length of the matched marker (the greedy digit run must be followed by
the literal ` ---`). -/
def pageMarkerLen (cs : List Char) : Option Nat :=
  if "--- Page ".toList.isPrefixOf cs then
    let p := (cs.drop 9).span Char.isDigit
    if p.1.isEmpty then none
    else if " ---".toList.isPrefixOf p.2 then some (9 + p.1.length + 4)
    else none
  else none

/-- Recursion core of `re.split(r'--- Page \d+ ---', text)` with a
step-count fuel making the recursion structural (a marker match consumes
at least one character, so `cs.length + 1` fuel always suffices). -/
def splitPMFuel : Nat → List Char → List (List Char)
  | 0, cs => [cs]
  | _ + 1, [] => [[]]
  | fuel + 1, c :: cs =>
    match pageMarkerLen (c :: cs) with
    | some k => [] :: splitPMFuel fuel ((c :: cs).drop k)
    | none =>
      match splitPMFuel fuel cs with
      | l :: ls => (c :: l) :: ls
      | [] => [[c]]

/-- `re.split(r'--- Page \d+ ---', text)`: the pieces between
non-overlapping marker matches found left to right. -/
def splitPageMarkers (cs : List Char) : List (List Char) :=
  splitPMFuel (cs.length + 1) cs

/-- `FormParser._split_pages` (form_parser.py:61-71): split on the page
markers, drop a leading piece that strips to nothing, then keep the
stripped nonempty pieces. -/
def split_pages (text : String) : List String :=
  let pages := (splitPageMarkers text.toList).map String.mk
  let pages :=
    match pages with
    | p :: rest => if (pyStrip p).isEmpty then rest else p :: rest
    | [] => pages
  (pages.map pyStrip).filter (fun p => !p.isEmpty)

/-- `Page \d+ of (\d+)` anchored at the given position, returning
`int(group(1))`. -/
def matchPageOfAt (cs : List Char) : Option Nat :=
  if "Page ".toList.isPrefixOf cs then
    let p1 := (cs.drop 5).span Char.isDigit
    if p1.1.isEmpty then none
    else if " of ".toList.isPrefixOf p1.2 then
      let p2 := (p1.2.drop 4).span Char.isDigit
      if p2.1.isEmpty then none else some (strToNatL p2.1)
    else none
  else none

/-- The document-metadata entries that carry page counts. -/
structure DocumentMetadata where
  total_pages_from_document : Option Nat
  total_pages : Nat
deriving DecidableEq, Repr

/-- The page-count part of `FormParser.parse_document`
(form_parser.py:47-55) with `_extract_document_metadata`
(form_parser.py:86-91): the `Page X of Y` marker, when present, is stored
under the separate key `total_pages_from_document`, while `total_pages`
is `num_pages or len(pages)` (the segmented count when the argument is
`None` or zero).  The constant file-name/document-type entries, the
wall-clock timestamp and the DocuSign envelope id do not interact with
the claims and are omitted. -/
def parse_document_pageMeta (full_text : String) (num_pages : Option Nat) :
    DocumentMetadata :=
  let pages := split_pages full_text
  { total_pages_from_document := scanFirst matchPageOfAt full_text.toList
    total_pages :=
      match num_pages with
      | some n => if n = 0 then pages.length else n
      | none => pages.length }

end FormParser

namespace TextPostprocessor

/-- Recursion core of `re.sub(r' +', ' ', _)`: the flag records whether
the scanner is inside a space run. -/
def collapseSpacesGo : Bool → List Char → List Char
  | _, [] => []
  | inRun, c :: cs =>
    if c = ' ' then
      if inRun then collapseSpacesGo true cs else ' ' :: collapseSpacesGo true cs
    else c :: collapseSpacesGo false cs

/-- `re.sub(r' +', ' ', _)`: every maximal run of literal spaces becomes a
single space. -/
def collapseSpaces (cs : List Char) : List Char :=
  collapseSpacesGo false cs

/-- Emit a completed newline run for `collapseNewlines`: a run of three
or more newlines becomes exactly two; shorter runs pass through. -/
def emitNlRun (k : Nat) : List Char :=
  if 3 ≤ k then ['\n', '\n'] else List.replicate k '\n'

/-- Recursion core of `re.sub(r'\n{3,}', '\n\n', _)`: `k` counts the
pending newline run. -/
def collapseNlGo : Nat → List Char → List Char
  | k, [] => emitNlRun k
  | k, c :: cs =>
    if c = '\n' then collapseNlGo (k + 1) cs
    else emitNlRun k ++ c :: collapseNlGo 0 cs

/-- `re.sub(r'\n{3,}', '\n\n', _)`: every maximal run of three or more
newlines becomes exactly two; shorter runs pass through. -/
def collapseNewlines (cs : List Char) : List Char :=
  collapseNlGo 0 cs

/-- Python `str.split('\n')` (an empty string yields one empty piece). -/
def splitNl : List Char → List (List Char)
  | [] => [[]]
  | c :: cs =>
    if c = '\n' then [] :: splitNl cs
    else
      match splitNl cs with
      | l :: ls => (c :: l) :: ls
      | [] => [[c]]

/-- `TextPostprocessor._remove_extra_whitespace` (postprocessor.py:64-76):
collapse space runs, collapse 3+ newline runs to two, strip every line,
strip the whole text. -/
def remove_extra_whitespace (cs : List Char) : List Char :=
  pyStripL (List.intercalate ['\n']
    ((splitNl (collapseNewlines (collapseSpaces cs))).map pyStripL))

/-- `re.sub` for a single-character pattern guarded by `\b` on both sides
(the `\b0\b` and `\bl\b` corrections): a position matches when the
character equals the target and both neighbours (in the original text)
are non-word characters or the text edge. -/
def subBoundaryChar (target repl : Char) (cs : List Char) : List Char :=
  go none cs
where
  go : Option Char → List Char → List Char
  | _, [] => []
  | prev, c :: rest =>
    let okLeft := match prev with
      | none => true
      | some p => !isWordChar p
    let okRight := match rest with
      | [] => true
      | d :: _ => !isWordChar d
    (if c = target && okLeft && okRight then repl else c) :: go (some c) rest

/-- `re.sub(r'rn', 'm', _)`: non-overlapping left-to-right replacement. -/
def subRn : List Char → List Char
  | 'r' :: 'n' :: cs => 'm' :: subRn cs
  | c :: cs => c :: subRn cs
  | [] => []

/-- `TextPostprocessor._fix_common_errors` (postprocessor.py:78-83): the
five corrections of `error_corrections`, applied in dict insertion order:
`\b0\b`→O, `\bl\b`→I, `rn`→m, `\|`→I, `~`→-. -/
def fix_common_errors (cs : List Char) : List Char :=
  ((subRn (subBoundaryChar 'l' 'I' (subBoundaryChar '0' 'O' cs))).map
      (fun c => if c = '|' then 'I' else c)).map
    (fun c => if c = '~' then '-' else c)

/-- The class `[​-‍﻿]` of zero-width characters. -/
def isZeroWidth (c : Char) : Bool :=
  (0x200b ≤ c.val && c.val ≤ 0x200d) || c.val = 0xfeff

/-- Membership in the captured class `[.,;:!?]`. -/
def isPunctClass (c : Char) : Bool :=
  c = '.' || c = ',' || c = ';' || c = ':' || c = '!' || c = '?'

/-- Recursion core of `re.sub(r'\s+([.,;:!?])', r'\1', _)`: `pend` holds
the whitespace run read so far.  A maximal run directly followed by a
punctuation character is deleted; no match can start inside a run that
is not followed by punctuation, so such a run is emitted unchanged. -/
def punctSpaceGo : List Char → List Char → List Char
  | pend, [] => pend
  | pend, c :: cs =>
    if pyIsSpace c then punctSpaceGo (pend ++ [c]) cs
    else if isPunctClass c then c :: punctSpaceGo [] cs
    else pend ++ c :: punctSpaceGo [] cs

/-- `re.sub(r'\s+([.,;:!?])', r'\1', _)`: whitespace immediately before
punctuation is removed. -/
def punctSpaceFix (cs : List Char) : List Char :=
  punctSpaceGo [] cs

/-- The first argument of the `str.replace` call on postprocessor.py line
92.  The line reads `text = text.replace(''', "'").replace(''', "'")`:
the token `'''` opens a triple-quoted string, so the first argument is
the 15-character literal between the two `'''` tokens, and the line is a
single replace call sending that literal to an apostrophe. -/
def oddQuoteLiteral : List Char :=
  (", \"'\").replace(").toList

/-- `TextPostprocessor._clean_special_characters` (postprocessor.py:85-97):
drop zero-width characters, apply the quote-normalization replaces (line
91 replaces `"` by `"`, a no-op, twice; line 92 is the single replace
described at `oddQuoteLiteral`), then delete whitespace before
punctuation. -/
def clean_special_characters (cs : List Char) : List Char :=
  punctSpaceFix
    (pyReplaceL oddQuoteLiteral ['\x27']
      (pyReplaceL ['"'] ['"'] (pyReplaceL ['"'] ['"']
        (cs.filter (fun c => !isZeroWidth c)))))

/-- `TextPostprocessor.process` (postprocessor.py:33-62) under the
shipped configuration (`POSTPROCESSING` enables both toggles): falsy
input is returned as is; otherwise whitespace removal, OCR-error fixes
and special-character cleanup run in order. -/
def process (s : String) : String :=
  if s = "" then s
  else
    String.mk (clean_special_characters (fix_common_errors
      (remove_extra_whitespace s.toList)))

/-- One recognized token, reduced to the only field
`calculate_confidence_score` reads (`r['confidence']`).  Confidences are
modelled as rationals; the loaded values and the 0.7 threshold are
decimal literals. -/
structure OcrToken where
  confidence : ℚ
deriving DecidableEq, Repr

/-- The metric dictionary returned by `calculate_confidence_score`; the
`low_confidence_count` key is optional because the empty-input branch
does not put it in the dictionary. -/
structure ConfidenceMetrics where
  average_confidence : ℚ
  min_confidence : ℚ
  max_confidence : ℚ
  total_detections : Nat
  low_confidence_count : Option Nat
deriving DecidableEq, Repr

/-- `TextPostprocessor.calculate_confidence_score`
(postprocessor.py:166-192). -/
def calculate_confidence_score (rs : List OcrToken) : ConfidenceMetrics :=
  match rs with
  | [] =>
    { average_confidence := 0
      min_confidence := 0
      max_confidence := 0
      total_detections := 0
      low_confidence_count := none }
  | r :: rest =>
    let confs := (r :: rest).map OcrToken.confidence
    { average_confidence := confs.sum / (confs.length : ℚ)
      min_confidence := rest.foldl (fun a t => min a t.confidence) r.confidence
      max_confidence := rest.foldl (fun a t => max a t.confidence) r.confidence
      total_detections := (r :: rest).length
      low_confidence_count :=
        some ((confs.filter (fun c => decide (c < 7/10))).length) }

end TextPostprocessor

namespace Accuracy

/-- A JSON value as loaded by `json.load` in measure_accuracy.py.
Numeric leaves are modelled as integers (Python `str()` on an int agrees
with Lean's rendering); floating-point leaves are outside the embedding
and do not occur in the claims below. -/
inductive JVal where
  | jnull : JVal
  | jbool : Bool → JVal
  | jint : Int → JVal
  | jstr : String → JVal
  | jobj : List (String × JVal) → JVal
  | jarr : List JVal → JVal
deriving Repr

mutual

/-- Structural equality of JSON values (Python `==` on loaded JSON
trees; the evaluator only ever compares leaves). -/
def beqJVal : JVal → JVal → Bool
  | .jnull, .jnull => true
  | .jbool a, .jbool b => a == b
  | .jint a, .jint b => a == b
  | .jstr a, .jstr b => a == b
  | .jobj a, .jobj b => beqJObj a b
  | .jarr a, .jarr b => beqJArr a b
  | _, _ => false

def beqJObj : List (String × JVal) → List (String × JVal) → Bool
  | [], [] => true
  | (k, v) :: xs, (l, w) :: ys => k == l && beqJVal v w && beqJObj xs ys
  | _, _ => false

def beqJArr : List JVal → List JVal → Bool
  | [], [] => true
  | v :: xs, w :: ys => beqJVal v w && beqJArr xs ys
  | _, _ => false

end

instance : BEq JVal := ⟨beqJVal⟩

/-- A Python dict with string keys, as an insertion-ordered association
list with unique keys. -/
abbrev JDict := List (String × JVal)

/-- Python `d[k] = v`: overwrite in place (keeping the key's original
position) or append. -/
def dinsert (d : JDict) (k : String) (v : JVal) : JDict :=
  if d.any (fun p => p.1 == k) then
    d.map (fun p => if p.1 == k then (k, v) else p)
  else d ++ [(k, v)]

/-- Python `{**a, **b}`. -/
def dmerge (a b : JDict) : JDict :=
  b.foldl (fun d p => dinsert d p.1 p.2) a

/-- Python `d.get(k)` (`None` when the key is absent). -/
def dget (d : JDict) (k : String) : Option JVal :=
  (d.find? (fun p => p.1 == k)).map Prod.snd

mutual

/-- `measure_accuracy.flatten_json`'s inner `flatten`: depth-first leaf
collection; an object key contributes `name + key + '_'`, a list index
contributes `name + str(i) + '_'`, and a leaf is written to the out-dict
under the accumulated name without its trailing underscore. -/
def flatten_aux : JVal → String → JDict → JDict
  | .jobj fs, name, out => flatten_obj fs name out
  | .jarr es, name, out => flatten_arr es 0 name out
  | v, name, out => dinsert out (String.mk name.toList.dropLast) v

def flatten_obj : List (String × JVal) → String → JDict → JDict
  | [], _, out => out
  | (k, v) :: fs, name, out => flatten_obj fs name (flatten_aux v (name ++ k ++ "_") out)

def flatten_arr : List JVal → Nat → String → JDict → JDict
  | [], _, _, out => out
  | v :: es, i, name, out =>
    flatten_arr es (i + 1) name (flatten_aux v (name ++ toString i ++ "_") out)

end

/-- `measure_accuracy.flatten_json`. -/
def flatten_json (y : JVal) : JDict :=
  flatten_aux y "" []

/-- `str(x).lower().strip().replace('\n', ' ')` on a string. -/
def pyNormStr (s : String) : String :=
  String.mk (pyReplaceL ['\n'] [' '] (pyStripL (pyLowerL s.toList)))

/-- `measure_accuracy.normalize_text` applied to a flattened leaf (or to
`None` for a missing prediction): `None` → empty, bools → their lowered
names, otherwise lower, strip, newline → space.  Composite values never
reach it from `evaluate_page` (flattening only emits leaves), so their
`str()` rendering is left unmodelled. -/
def normalize_text : Option JVal → String
  | none => ""
  | some .jnull => ""
  | some (.jbool b) => if b then "true" else "false"
  | some (.jint n) => pyNormStr (toString n)
  | some (.jstr s) => pyNormStr s
  | some (.jobj _) => ""
  | some (.jarr _) => ""

/-- One page object of a prediction or ground-truth document, reduced to
the five section-typed field maps the evaluator reads (`.get(key, {})`
turns an absent map into the empty dict, so absent maps are simply `[]`). -/
structure PageData where
  form_fields : JDict := []
  signatures : JDict := []
  part_b : JDict := []
  tables : JDict := []
  third_party_payment_form : JDict := []
deriving Repr

/-- The per-page counters of `evaluate_page`. -/
structure PageMetrics where
  total_fields : Nat
  exact_matches : Nat
  norm_matches : Nat
  cer_sum : ℚ
deriving DecidableEq, Repr

/-- The four-map merge on measure_accuracy.py lines 60-61: form_fields,
signatures, part_b, third_party_payment_form — `tables` is not merged
here. -/
def merged_data (p : PageData) : JDict :=
  dmerge (dmerge (dmerge p.form_fields p.signatures) p.part_b)
    p.third_party_payment_form

/-- The five-map merge used by the mismatch-detail pass in `main`
(measure_accuracy.py lines 157-158), which does include `tables`. -/
def merged_data_mismatch (p : PageData) : JDict :=
  dmerge (dmerge (dmerge (dmerge p.form_fields p.signatures) p.part_b)
    p.tables) p.third_party_payment_form

/-- `measure_accuracy.evaluate_page` (lines 50-90).  The character error
rate of one (truth leaf, prediction leaf) pair comes from difflib's
floating-point `SequenceMatcher.ratio`; it is abstracted as the
parameter `cer`, and the theorems below hold for every such function. -/
def evaluate_page (cer : JVal → Option JVal → ℚ) (pred truth : PageData) :
    PageMetrics :=
  let pred_flat := flatten_json (.jobj (merged_data pred))
  let truth_flat := flatten_json (.jobj (merged_data truth))
  truth_flat.foldl
    (fun m kv =>
      if kv.2 == .jnull then m
      else
        let pv := dget pred_flat kv.1
        let exact := match pv with
          | none => false
          | some v => v == kv.2
        { total_fields := m.total_fields + 1
          exact_matches := m.exact_matches + (if exact then 1 else 0)
          norm_matches := m.norm_matches +
            (if normalize_text pv = normalize_text (some kv.2) then 1 else 0)
          cer_sum := m.cer_sum + cer kv.2 pv })
    ⟨0, 0, 0, 0⟩

end Accuracy

/-! ## Claim support -/

/-- A concrete character-error-rate function (the claims about
`evaluate_page` hold for every such function; this one instantiates the
closed statements). -/
def cerZero : Accuracy.JVal → Option Accuracy.JVal → ℚ := fun _ _ => 0

/-- A page whose only content is a `tables` map with one nested leaf. -/
def tablesOnlyPage : Accuracy.PageData :=
  { tables :=
      [("supplement_a_items",
        .jarr [.jobj [("provider", .jstr "ACIBADEM Hospital")]])] }

/-- The same nested leaf placed under `form_fields` instead. -/
def formFieldsPage : Accuracy.PageData :=
  { form_fields :=
      [("supplement_a_items",
        .jarr [.jobj [("provider", .jstr "ACIBADEM Hospital")]])] }

/-- A one-page document text containing a `Page 1 of 9` marker. -/
def pageOfNineText : String := "--- Page 1 ---\nPage 1 of 9\nhello"

/-! ## Supporting lemmas -/

theorem isDigit_toNat {c : Char} (h : c.isDigit = true) :
    48 ≤ c.toNat ∧ c.toNat ≤ 57 := by
  simp [Char.isDigit] at h
  exact ⟨h.1, h.2⟩

theorem isDigit_not_space {c : Char} (h : c.isDigit = true) :
    pyIsSpace c = false := by
  obtain ⟨h1, h2⟩ := isDigit_toNat h
  simp only [pyIsSpace, Bool.or_eq_false_iff, Bool.and_eq_false_iff,
    decide_eq_false_iff_not, not_le]
  omega

theorem digitChar_isDigit {k : Nat} (hk : k < 10) :
    (Nat.digitChar k).isDigit = true := by
  interval_cases k <;> decide

theorem digitChar_toNat {k : Nat} (hk : k < 10) :
    (Nat.digitChar k).toNat = 48 + k := by
  interval_cases k <;> decide

theorem pad2_digits {n : Nat} (hn : n < 100) :
    ∀ c ∈ pad2 n, c.isDigit = true := by
  intro c hc
  simp only [pad2, List.mem_cons, List.not_mem_nil, or_false] at hc
  rcases hc with h | h <;> subst h
  · exact digitChar_isDigit (by omega)
  · exact digitChar_isDigit (Nat.mod_lt _ (by norm_num))

theorem strToNatL_pad2 {n : Nat} (hn : n < 100) : strToNatL (pad2 n) = n := by
  simp only [pad2, strToNatL, List.foldl]
  rw [digitChar_toNat (by omega), digitChar_toNat (Nat.mod_lt _ (by norm_num))]
  omega

theorem strToNatL_lt_100 {cs : List Char} (hlen : cs.length ≤ 2)
    (hd : ∀ c ∈ cs, c.isDigit = true) : strToNatL cs < 100 := by
  match cs, hlen with
  | [], _ => simp [strToNatL]
  | [a], _ =>
    have := isDigit_toNat (hd a (by simp))
    simp only [strToNatL, List.foldl]
    omega
  | [a, b], _ =>
    have ha := isDigit_toNat (hd a (by simp))
    have hb := isDigit_toNat (hd b (by simp))
    simp only [strToNatL, List.foldl]
    omega

theorem dropWhile_head_false {p : Char → Bool} {l : List Char} {x : Char}
    {xs : List Char} (h : l.dropWhile p = x :: xs) : p x = false := by
  induction l with
  | nil => simp at h
  | cons a as ih =>
    rw [List.dropWhile_cons] at h
    by_cases hp : p a
    · rw [if_pos hp] at h
      exact ih h
    · rw [if_neg hp] at h
      obtain ⟨h1, -⟩ := List.cons.inj h
      rw [h1] at hp
      simpa using hp

theorem dropWhile_eq_self_of_false {p : Char → Bool} {l : List Char}
    (h : ∀ c ∈ l, p c = false) : l.dropWhile p = l := by
  cases l with
  | nil => rfl
  | cons a as => simp [List.dropWhile_cons, h a (by simp)]

theorem dropWhile_rdropWhile_dropWhile (p : Char → Bool) (cs : List Char) :
    (List.rdropWhile p (cs.dropWhile p)).dropWhile p =
      List.rdropWhile p (cs.dropWhile p) := by
  cases h : List.rdropWhile p (cs.dropWhile p) with
  | nil => rfl
  | cons a as =>
    have hpref : List.rdropWhile p (cs.dropWhile p) <+: cs.dropWhile p :=
      List.rdropWhile_prefix p (cs.dropWhile p)
    rw [h] at hpref
    obtain ⟨t, ht⟩ := hpref
    have ha : p a = false := by
      have hcs : cs.dropWhile p = a :: (as ++ t) := by
        rw [← ht]
        simp
      exact dropWhile_head_false hcs
    simp [List.dropWhile_cons, ha]

/-- `pyStripL` written through Mathlib's right-trim. -/
theorem pyStripL_eq_rdropWhile (cs : List Char) :
    pyStripL cs = List.rdropWhile pyIsSpace (cs.dropWhile pyIsSpace) := rfl

/-- Python `str.strip()` is idempotent. -/
theorem pyStripL_idem (cs : List Char) :
    pyStripL (pyStripL cs) = pyStripL cs := by
  rw [pyStripL_eq_rdropWhile cs, pyStripL_eq_rdropWhile, dropWhile_rdropWhile_dropWhile]
  exact List.rdropWhile_idempotent pyIsSpace (cs.dropWhile pyIsSpace)

/-- A list without whitespace is already stripped. -/
theorem pyStripL_eq_self {cs : List Char}
    (h : ∀ c ∈ cs, pyIsSpace c = false) : pyStripL cs = cs := by
  unfold pyStripL
  rw [dropWhile_eq_self_of_false h, dropWhile_eq_self_of_false (by simpa using h)]
  simp

theorem takeWhile_append_cons {p : Char → Bool} {l : List Char}
    (hl : ∀ c ∈ l, p c = true) {c : Char} (hc : p c = false) (r : List Char) :
    (l ++ c :: r).takeWhile p = l ∧ (l ++ c :: r).dropWhile p = c :: r := by
  induction l with
  | nil => simp [List.takeWhile_cons, List.dropWhile_cons, hc]
  | cons a as ih =>
    have ha : p a = true := hl a (by simp)
    have ih2 := ih (fun d hd => hl d (by simp [hd]))
    simp [List.takeWhile_cons, List.dropWhile_cons, ha, ih2.1, ih2.2]

theorem takeWhile_all {p : Char → Bool} {l : List Char}
    (hl : ∀ c ∈ l, p c = true) :
    l.takeWhile p = l ∧ l.dropWhile p = [] := by
  induction l with
  | nil => simp
  | cons a as ih =>
    have ha : p a = true := hl a (by simp)
    have ih2 := ih (fun d hd => hl d (by simp [hd]))
    simp [List.takeWhile_cons, List.dropWhile_cons, ha, ih2.1, ih2.2]

/-- Re-matching the date scanner against a rendered
`MM/DD/<year digits>` output succeeds and returns the three rendered
groups. -/
theorem matchMDY_rendered {M D : Nat} (hM : M < 100) (hD : D < 100)
    {Y : List Char} (hY : ∀ c ∈ Y, c.isDigit = true) (n : Nat)
    (hYn : Y.length = n) :
    FormParser.matchMDY n (pad2 M ++ '/' :: (pad2 D ++ '/' :: Y)) =
      some (pad2 M, pad2 D, Y) := by
  have hslash : Char.isDigit '/' = false := by decide
  have h1 := takeWhile_append_cons (pad2_digits hM) hslash (pad2 D ++ '/' :: Y)
  have h2 := takeWhile_append_cons (pad2_digits hD) hslash Y
  have h3 := takeWhile_all hY
  have hlenM : (pad2 M).length = 2 := rfl
  have hlenD : (pad2 D).length = 2 := rfl
  unfold FormParser.matchMDY
  simp only [List.append_assoc, List.cons_append, List.span_eq_take_drop,
    h1.1, h1.2, h2.1, h2.2, h3.1, h3.2, hYn]
  simp only [hlenM, hlenD]
  simp

/-- What a successful `matchMDY` tells about its groups. -/
theorem matchMDY_inv {n : Nat} {cs m d y : List Char}
    (h : FormParser.matchMDY n cs = some (m, d, y)) :
    (∀ c ∈ m, c.isDigit = true) ∧ 1 ≤ m.length ∧ m.length ≤ 2 ∧
    (∀ c ∈ d, c.isDigit = true) ∧ 1 ≤ d.length ∧ d.length ≤ 2 ∧
    (∀ c ∈ y, c.isDigit = true) ∧ y.length = n := by
  unfold FormParser.matchMDY at h
  simp only [List.span_eq_take_drop] at h
  split at h
  · simp at h
  · rename_i hlen1
    split at h
    · rename_i r2 heq2
      split at h
      · simp at h
      · rename_i hlen2
        split at h
        · rename_i r4 heq4
          split at h
          · rename_i hcond
            simp only [Option.some.injEq, Prod.mk.injEq] at h
            obtain ⟨hm, hd, hy⟩ := h
            simp only [Bool.or_eq_true, decide_eq_true_eq, not_or] at hlen1 hlen2
            simp only [Bool.and_eq_true, decide_eq_true_eq, List.isEmpty_eq_true]
              at hcond
            subst hm
            subst hd
            subst hy
            refine ⟨fun c hc => List.mem_takeWhile_imp hc, by omega, by omega,
              fun c hc => List.mem_takeWhile_imp hc, by omega, by omega,
              fun c hc => List.mem_takeWhile_imp hc, hcond.1⟩
          · simp at h
        · simp at h
    · simp at h

/-- No character of a rendered `MM/DD/<digits>` date is whitespace. -/
theorem rendered_not_space {M D : Nat} (hM : M < 100) (hD : D < 100)
    {Y : List Char} (hY : ∀ c ∈ Y, c.isDigit = true) :
    ∀ c ∈ pad2 M ++ '/' :: (pad2 D ++ '/' :: Y), pyIsSpace c = false := by
  intro c hc
  simp only [List.append_assoc, List.cons_append, List.mem_append,
    List.mem_cons] at hc
  rcases hc with h | h | h | h | h
  · exact isDigit_not_space (pad2_digits hM c h)
  · subst h
    decide
  · exact isDigit_not_space (pad2_digits hD c h)
  · subst h
    decide
  · exact isDigit_not_space (hY c h)

/-- A rendered date is a fixed point of `_normalize_date`: it strips to
itself, re-matches the `M/D/YYYY` shape, and the zero-padded groups
re-render identically. -/
theorem normalize_date_rendered {M D : Nat} (hM : M < 100) (hD : D < 100)
    {Y : List Char} (hY : ∀ c ∈ Y, c.isDigit = true) (hYlen : Y.length = 4) :
    FormParser.normalize_date
        (some (String.mk (pad2 M ++ '/' :: (pad2 D ++ '/' :: Y)))) =
      some (String.mk (pad2 M ++ '/' :: (pad2 D ++ '/' :: Y))) := by
  have hns := rendered_not_space hM hD hY
  have hmk : String.mk (pad2 M ++ '/' :: (pad2 D ++ '/' :: Y)) ≠ "" := by
    intro h
    have hd := congrArg String.data h
    simp [pad2] at hd
  have hstrip := pyStripL_eq_self hns
  have hmatch := matchMDY_rendered hM hD hY 4 hYlen
  simp [FormParser.normalize_date, hmk, hstrip, hmatch,
    strToNatL_pad2 hM, strToNatL_pad2 hD]

theorem beqJVal_jstr_jnull (s : String) :
    (Accuracy.JVal.jstr s == Accuracy.JVal.jnull) = false := rfl

theorem beqJVal_jstr_jstr (a b : String) :
    (Accuracy.JVal.jstr a == Accuracy.JVal.jstr b) = (a == b) := rfl

/-- Componentwise proof principle for `PageMetrics` equalities (the
rational `cer_sum` field does not reduce in the kernel, so it is settled
separately from the three counters). -/
theorem pageMetricsEqOf (a b : Accuracy.PageMetrics)
    (h1 : a.total_fields = b.total_fields)
    (h2 : a.exact_matches = b.exact_matches)
    (h3 : a.norm_matches = b.norm_matches)
    (h4 : a.cer_sum = b.cer_sum) : a = b := by
  cases a
  cases b
  simp_all

/-! ## Claims -/

/-- C1, counterexample: the clean stage that actually runs (the second
definition of `_clean_value`, which shadows the first) leaves the
sentinel token `none` and stray underscores/periods untouched, while
the shadowed first definition would have mapped the sentinel to the
absent marker. -/
theorem C1_clean_value_counterexample :
    FormParser.clean_value (some "none") = some "none" ∧
    FormParser.clean_value (some "a_b.") = some "a_b." ∧
    FormParser.clean_value_shadowed (some "none") = none := by
  refine ⟨by decide, by decide, by decide⟩

/-- C1, amended: the clean stage applied to every cleaned field map
trims the value, collapses each internal whitespace run to a single
space and maps empty results to the absent marker `None`; it does not
strip underscores or periods and does not map the sentinel tokens. -/
theorem C1_clean_value_amended :
    (∀ s : String,
      FormParser.clean_value (some s) = none ∨
      FormParser.clean_value (some s) =
        some (String.mk (collapseWsL (pyStripL s.toList)))) ∧
    FormParser.clean_value none = none ∧
    FormParser.clean_value (some " a   b ") = some "a b" ∧
    FormParser.clean_value (some "none") = some "none" ∧
    FormParser.clean_value (some " N/A _x. ") = some "N/A _x." ∧
    FormParser.clean_value (some "   ") = none := by
  refine ⟨fun s => ?_, rfl, by decide, by decide, by decide, by decide⟩
  by_cases h : collapseWsL (pyStripL s.data) = []
  · left
    simp [FormParser.clean_value, List.isEmpty_eq_true, h]
  · right
    simp [FormParser.clean_value, List.isEmpty_eq_true, h]

/-- C2, counterexample: a document whose text carries an in-text
`Page 1 of 9` marker but segments into a single page, parsed with
`num_pages = None`: the metadata's `total_pages` is the segmented count
1, not the marker value 9 — the marker value only lands in the separate
`total_pages_from_document` key. -/
theorem C2_total_pages_counterexample :
    (FormParser.parse_document_pageMeta pageOfNineText none).total_pages_from_document
        = some 9 ∧
    (FormParser.parse_document_pageMeta pageOfNineText none).total_pages = 1 := by
  refine ⟨by decide, by decide⟩

/-- C2, amended: `total_pages` equals the `num_pages` argument whenever
that argument is provided and nonzero, and the segmented page count
otherwise; the `Page X of Y` value is stored under the separate
`total_pages_from_document` key when the marker is present and never
overrides `total_pages`. -/
theorem C2_total_pages_amended :
    (∀ (t : String) (n : Nat), n ≠ 0 →
      (FormParser.parse_document_pageMeta t (some n)).total_pages = n) ∧
    (∀ t : String,
      (FormParser.parse_document_pageMeta t none).total_pages =
        (FormParser.split_pages t).length) ∧
    (FormParser.parse_document_pageMeta pageOfNineText none).total_pages_from_document
        = some 9 ∧
    (FormParser.parse_document_pageMeta pageOfNineText none).total_pages = 1 := by
  refine ⟨fun t n hn => ?_, fun t => rfl, by decide, by decide⟩
  simp [FormParser.parse_document_pageMeta, hn]

/-- C2, witness for the amended claim at a concrete document. -/
theorem C2_total_pages_witness :
    (FormParser.parse_document_pageMeta "x" (some 4)).total_pages = 4 :=
  C2_total_pages_amended.1 "x" 4 (by decide)

/-- C4, counterexample: a PART D page on which no date and no printed
name is found yields a signatures map whose `printed_name` is the empty
string, not the absent marker `None`; the map is also not passed
through the clean stage. -/
theorem C4_printed_name_counterexample :
    FormParser.parse_part_d "PART D: MEDICAL RECORD AUTHORIZATION" =
      { claimant_signature_date_mm_dd_yy := none
        insured_signature_date_mm_dd_yy := none
        printed_name := "" } := by
  decide

/-- C4, amended: when PART D signature parsing finds no signature date
and no printed name, the resulting signatures map carries both dates as
`None` but `printed_name` as the empty string. -/
theorem C4_printed_name_amended :
    (∀ t : String,
      FormParser.scanFirst FormParser.matchDateAt t.toList = none →
      FormParser.scanFirst FormParser.matchDigits4NameAt t.toList = none →
      FormParser.scanFirst FormParser.matchPrintNameAt t.toList = none →
      FormParser.parse_part_d t =
        { claimant_signature_date_mm_dd_yy := none
          insured_signature_date_mm_dd_yy := none
          printed_name := "" }) ∧
    (FormParser.parse_part_d "PART D: MEDICAL RECORD AUTHORIZATION").printed_name
        = "" := by
  refine ⟨fun t h1 h2 h3 => ?_, by decide⟩
  simp only [String.toList] at h1 h2 h3
  simp [FormParser.parse_part_d, h1, h2, h3]

/-- C4, witness for the amended claim at the empty page text. -/
theorem C4_printed_name_witness :
    FormParser.parse_part_d "" =
      { claimant_signature_date_mm_dd_yy := none
        insured_signature_date_mm_dd_yy := none
        printed_name := "" } :=
  C4_printed_name_amended.1 "" rfl rfl rfl

/-- C3, counterexample: a ground-truth page whose only non-null leaf
lives inside the `tables` map contributes nothing to the per-page
counters (total_fields stays 0), while the identical leaf placed under
`form_fields` contributes one counted, exactly-matching field — so a
`tables` leaf is not treated like a `form_fields` leaf. -/
theorem C3_tables_counterexample :
    Accuracy.evaluate_page cerZero tablesOnlyPage tablesOnlyPage =
      { total_fields := 0, exact_matches := 0, norm_matches := 0, cer_sum := 0 } ∧
    Accuracy.evaluate_page cerZero formFieldsPage formFieldsPage =
      { total_fields := 1, exact_matches := 1, norm_matches := 1, cer_sum := 0 } := by
  refine ⟨rfl, pageMetricsEqOf _ _ (by decide) (by decide) (by decide) ?_⟩
  show (0 : ℚ) + 0 = 0
  exact zero_add 0

/-- C3, amended: `evaluate_page` merges only form_fields, signatures,
part_b and third_party_payment_form — its metrics are invariant under
arbitrary changes to both pages' `tables` maps — whereas the
mismatch-detail pass does flatten `tables` content into comparable leaf
keys. -/
theorem C3_tables_amended :
    (∀ (cer : Accuracy.JVal → Option Accuracy.JVal → ℚ)
      (pred truth : Accuracy.PageData) (tb1 tb2 : Accuracy.JDict),
      Accuracy.evaluate_page cer { pred with tables := tb1 }
          { truth with tables := tb2 } =
        Accuracy.evaluate_page cer pred truth) ∧
    Accuracy.dget
      (Accuracy.flatten_json (.jobj (Accuracy.merged_data_mismatch tablesOnlyPage)))
      "supplement_a_items_0_provider" = some (.jstr "ACIBADEM Hospital") ∧
    (Accuracy.evaluate_page cerZero formFieldsPage formFieldsPage).total_fields
      = 1 := by
  refine ⟨fun cer pred truth tb1 tb2 => rfl, rfl, by decide⟩

/-- C5, counterexample: two values that differ only in the width of an
internal run of spaces do not count as a normalized match — the
evaluator's normalization lowers, trims the ends and turns newlines into
spaces, but does not collapse internal whitespace runs. -/
theorem C5_norm_match_counterexample :
    Accuracy.evaluate_page cerZero
      { form_fields := [("f", .jstr "a b")] }
      { form_fields := [("f", .jstr "a  b")] } =
      { total_fields := 1, exact_matches := 0, norm_matches := 0, cer_sum := 0 }
      := by
  refine pageMetricsEqOf _ _ (by decide) (by decide) (by decide) ?_
  show (0 : ℚ) + 0 = 0
  exact zero_add 0

/-- C5, amended: for a single-field page the normalized-match counter is
incremented exactly when the two values agree after lowercasing,
stripping the ends and replacing each newline with one space; internal
space runs are kept verbatim, so `A\nb ` matches `a b` while `a  b`
does not. -/
theorem C5_norm_match_amended :
    (∀ (cer : Accuracy.JVal → Option Accuracy.JVal → ℚ) (sv sw : String),
      Accuracy.evaluate_page cer
        { form_fields := [("f", .jstr sw)] }
        { form_fields := [("f", .jstr sv)] } =
        { total_fields := 1
          exact_matches := if sw = sv then 1 else 0
          norm_matches :=
            if Accuracy.pyNormStr sw = Accuracy.pyNormStr sv then 1 else 0
          cer_sum := cer (.jstr sv) (some (.jstr sw)) }) ∧
    Accuracy.pyNormStr "A\nb " = Accuracy.pyNormStr "a b" ∧
    ((Accuracy.pyNormStr "a  b" == Accuracy.pyNormStr "a b") = false) := by
  refine ⟨fun cer sv sw => ?_, by decide, by decide⟩
  simp [Accuracy.evaluate_page, Accuracy.merged_data, Accuracy.dmerge,
    Accuracy.flatten_json, Accuracy.flatten_aux, Accuracy.flatten_obj,
    Accuracy.dinsert, Accuracy.dget, Accuracy.normalize_text,
    beqJVal_jstr_jnull, beqJVal_jstr_jstr, beq_iff_eq]

/-- C6, counterexample: the empty-input branch of
`calculate_confidence_score` returns a dictionary without the
`low_confidence_count` key, so the low-confidence count is absent
rather than zero. -/
theorem C6_confidence_counterexample :
    (TextPostprocessor.calculate_confidence_score []).low_confidence_count
      = none := rfl

/-- C6, amended: on an empty token set `calculate_confidence_score`
returns zero average, minimum and maximum confidence and a zero total
detection count without performing any division, but it omits the
low-confidence-count entry; on every input the total detection count is
the number of tokens. -/
theorem C6_confidence_amended :
    TextPostprocessor.calculate_confidence_score [] =
      { average_confidence := 0
        min_confidence := 0
        max_confidence := 0
        total_detections := 0
        low_confidence_count := none } ∧
    (∀ rs : List TextPostprocessor.OcrToken,
      (TextPostprocessor.calculate_confidence_score rs).total_detections
        = rs.length) := by
  refine ⟨rfl, fun rs => ?_⟩
  cases rs with
  | nil => rfl
  | cons r rest => simp [TextPostprocessor.calculate_confidence_score]

/-- C7: `9/5/2023` is rewritten to `09/05/2023`, `07/09/23` to
`07/09/2023` (two-digit years become 21st-century), and every nonempty
string matching neither accepted date shape is returned stripped but
otherwise untouched. -/
theorem C7_normalize_date :
    FormParser.normalize_date (some "9/5/2023") = some "09/05/2023" ∧
    FormParser.normalize_date (some "07/09/23") = some "07/09/2023" ∧
    (∀ s : String, s ≠ "" →
      FormParser.matchMDY 4 (pyStripL s.toList) = none →
      FormParser.matchMDY 2 (pyStripL s.toList) = none →
      FormParser.normalize_date (some s) = some (String.mk (pyStripL s.toList))) := by
  refine ⟨by decide, by decide, fun s h1 h2 h3 => ?_⟩
  simp only [String.toList] at h2 h3
  simp [FormParser.normalize_date, h1, h2, h3]

/-- C7, witness: a malformed date is returned stripped. -/
theorem C7_normalize_date_witness :
    FormParser.normalize_date (some " July 8 ") =
      some (String.mk (pyStripL " July 8 ".toList)) :=
  C7_normalize_date.2.2 " July 8 " (by decide) (by decide) (by decide)

/-- C8, counterexample: neither normalizer is idempotent as claimed.
The text pipeline first removes the zero-width character of `r​n`,
producing `rn`; a second pass then applies the `rn`→`m` OCR correction,
so processing twice differs from processing once.  Date normalization
maps the all-whitespace string `" "` to `""` on the first pass and to
`None` (falsy input) on the second. -/
theorem C8_idempotence_counterexample :
    ((TextPostprocessor.process (TextPostprocessor.process "r​n") ==
        TextPostprocessor.process "r​n") = false) ∧
    ((FormParser.normalize_date (FormParser.normalize_date (some " ")) ==
        FormParser.normalize_date (some " ")) = false) := by
  refine ⟨by decide, by decide⟩

/-- C8, amended: field-level date normalization is idempotent on every
input except nonempty all-whitespace strings (where the first pass
returns `""` and the second maps `""` to `None`); the Text Normalizer
pipeline is not idempotent in general — removing a zero-width character
can create a fresh `rn` OCR-error pattern that only a second pass
rewrites to `m`. -/
theorem C8_idempotence_amended :
    (∀ s : String, pyStripL s.toList ≠ [] →
      FormParser.normalize_date (FormParser.normalize_date (some s)) =
        FormParser.normalize_date (some s)) ∧
    FormParser.normalize_date (FormParser.normalize_date none) =
      FormParser.normalize_date none ∧
    FormParser.normalize_date (FormParser.normalize_date (some "")) =
      FormParser.normalize_date (some "") ∧
    TextPostprocessor.process "r​n" = "rn" ∧
    TextPostprocessor.process "rn" = "m" := by
  refine ⟨fun s hs => ?_, rfl, rfl, by decide, by decide⟩
  simp only [String.toList] at hs
  have hsne : s ≠ "" := by
    intro he
    subst he
    exact hs rfl
  rcases h4 : FormParser.matchMDY 4 (pyStripL s.data) with - | ⟨m, d, y⟩
  · rcases h2 : FormParser.matchMDY 2 (pyStripL s.data) with - | ⟨m, d, y⟩
    · -- both patterns fail: the result is the stripped input, which is a
      -- fixed point because stripping is idempotent.
      have h1st : FormParser.normalize_date (some s) =
          some (String.mk (pyStripL s.data)) := by
        simp [FormParser.normalize_date, hsne, h4, h2]
      have hmk : String.mk (pyStripL s.data) ≠ "" := by
        intro h
        exact hs (congrArg String.data h)
      rw [h1st]
      simp [FormParser.normalize_date, hmk, pyStripL_idem, h4, h2]
    · -- M/D/YY matched: the output re-matches as M/D/YYYY and re-renders
      -- identically.
      obtain ⟨hmd, hm1, hm2, hdd, hd1, hd2, hyd, hyl⟩ := matchMDY_inv h2
      have hM : strToNatL m < 100 := strToNatL_lt_100 hm2 hmd
      have hD : strToNatL d < 100 := strToNatL_lt_100 hd2 hdd
      have h1st : FormParser.normalize_date (some s) =
          some (String.mk (pad2 (strToNatL m) ++ '/' ::
            (pad2 (strToNatL d) ++ '/' :: '2' :: '0' :: y))) := by
        simp [FormParser.normalize_date, hsne, h4, h2]
      rw [h1st]
      refine normalize_date_rendered hM hD ?_ ?_
      · intro c hc
        simp only [List.mem_cons] at hc
        rcases hc with h | h | h
        · subst h
          decide
        · subst h
          decide
        · exact hyd c h
      · simp [hyl]
  · -- M/D/YYYY matched on the first pass.
    obtain ⟨hmd, hm1, hm2, hdd, hd1, hd2, hyd, hyl⟩ := matchMDY_inv h4
    have hM : strToNatL m < 100 := strToNatL_lt_100 hm2 hmd
    have hD : strToNatL d < 100 := strToNatL_lt_100 hd2 hdd
    have h1st : FormParser.normalize_date (some s) =
        some (String.mk (pad2 (strToNatL m) ++ '/' ::
          (pad2 (strToNatL d) ++ '/' :: y))) := by
      simp [FormParser.normalize_date, hsne, h4]
    rw [h1st]
    exact normalize_date_rendered hM hD hyd hyl

/-- C8, witness: the amended idempotence applied to a date that strips
to something nonempty. -/
theorem C8_idempotence_witness :
    FormParser.normalize_date (FormParser.normalize_date (some "9/5/2023")) =
      FormParser.normalize_date (some "9/5/2023") :=
  C8_idempotence_amended.1 "9/5/2023" (by decide)

set_option maxHeartbeats 1600000 in
/-- C9: section classification is total and deterministic — on every
(text, page_number) pair the chain agrees with the ordered
first-match rule list of the spec and lands in the closed enumeration,
falling through to `UNKNOWN SECTION` when no marker phrase occurs; the
PART A header phrase classifies as plain PART A on page 1 and as the
combined PART A (Continued) + PART B section on page 2. -/
theorem C9_identify_section :
    (∀ (t : String) (p : Nat),
      FormParser.identify_section t p = FormParser.identify_section_byRules t p ∧
      FormParser.identify_section t p ∈ FormParser.allSections) ∧
    (∀ (t : String) (p : Nat),
      occursS "PART A: CLAIMANT INFORMATION" t = false →
      occursS "PART C: MEDICAL INFORMATION" t = false →
      occursS "PART D: MEDICAL RECORD AUTHORIZATION" t = false →
      occursS "SUPPLEMENT A" t = false →
      occursS "SUPPLEMENT B" t = false →
      occursS "SUPPLEMENT C" t = false →
      occursS "SUPPLEMENT D" t = false →
      FormParser.identify_section t p = "UNKNOWN SECTION") ∧
    (∀ t : String, occursS "PART A: CLAIMANT INFORMATION" t = true →
      FormParser.identify_section t 1 = "PART A: CLAIMANT INFORMATION" ∧
      FormParser.identify_section t 2 =
        "PART A (Continued) + PART B: TRAVEL ASSISTANCE AND OTHER CLAIMS") := by
  refine ⟨fun t p => ⟨?_, ?_⟩,
    fun t p h1 h2 h3 h4 h5 h6 h7 =>
      by simp [FormParser.identify_section, h1, h2, h3, h4, h5, h6, h7],
    fun t h =>
      ⟨by simp [FormParser.identify_section, h],
       by simp [FormParser.identify_section, h]⟩⟩
  · unfold FormParser.identify_section FormParser.identify_section_byRules
      FormParser.sectionRules
    simp only [FormParser.applyRules]
    split_ifs <;> simp_all
  · unfold FormParser.identify_section
    split_ifs <;> simp [FormParser.allSections]

/-- C9, witness: the classifier at concrete inputs — the PART A header
phrase on pages 1 and 2, and a marker-free text. -/
theorem C9_identify_section_witness :
    FormParser.identify_section "PART A: CLAIMANT INFORMATION" 1 =
        "PART A: CLAIMANT INFORMATION" ∧
    FormParser.identify_section "PART A: CLAIMANT INFORMATION" 2 =
        "PART A (Continued) + PART B: TRAVEL ASSISTANCE AND OTHER CLAIMS" ∧
    FormParser.identify_section "no markers here" 7 = "UNKNOWN SECTION" :=
  ⟨(C9_identify_section.2.2 "PART A: CLAIMANT INFORMATION" (by decide)).1,
   (C9_identify_section.2.2 "PART A: CLAIMANT INFORMATION" (by decide)).2,
   C9_identify_section.2.1 "no markers here" 7 (by decide) (by decide)
     (by decide) (by decide) (by decide) (by decide) (by decide)⟩

/-- C10: ZIP validation rejects by substring — any nonempty candidate
containing `48333` or `2005` anywhere (for instance the legitimate
postal code `20057`) is mapped to `None`, and every other nonempty
candidate passes through unchanged. -/
theorem C10_validate_zip :
    (∀ s : String, s ≠ "" →
      ((occursS "48333" s || occursS "2005" s) = true →
        FormParser.validate_zip (some s) = none) ∧
      ((occursS "48333" s || occursS "2005" s) = false →
        FormParser.validate_zip (some s) = some s)) ∧
    FormParser.validate_zip (some "20057") = none := by
  refine ⟨fun s hs => ⟨fun h => ?_, fun h => ?_⟩, by decide⟩
  · simp [FormParser.validate_zip, hs, h]
  · simp [FormParser.validate_zip, hs, h]

/-- C10, witness: a plain ZIP candidate passes through unchanged. -/
theorem C10_validate_zip_witness :
    FormParser.validate_zip (some "01890") = some "01890" :=
  (C10_validate_zip.1 "01890" (by decide)).2 (by decide)

end OCRPaddle
